import Mathlib

/-!
Verification of the Caerus engagement ledger (freemium view counters,
monthly DM limit, Q&A thread status machine) and of the admin-panel
access gating.

The backend implementation (FastAPI dependency objects and route
handlers in `backend/app/api/deps.py`, `backend/app/api/qa.py`,
`backend/app/api/talent_qa.py` and the SQLAlchemy models) is not part
of the repository snapshot — only the progress documents describing it
are — so the ledger operations below are modelled from the
specification. The admin-panel gating (`admin/lib/auth-context.tsx`,
`admin/components/AdminLayout.tsx`) is present and is embedded from
the source.
-/

namespace Caerus

abbrev ActorId := Nat
abbrev PitchId := Nat
abbrev ThreadId := Nat

/-- Reason tag carried by a quota decision (spec §4.1). -/
inductive Reason where
  | entitled
  | free_quota
  | exhausted
deriving DecidableEq, Repr

/-- Modelled from the spec: the `Decision` outcome object of §4.1
(the backend returns it as the body of the access-check dependency in
`backend/app/api/deps.py`, absent from the snapshot).  A denial is a
normal value of this type, never an exception. -/
structure Decision where
  allowed : Bool
  remaining : Int
  reason : Option Reason
deriving DecidableEq, Repr

/-! ### Freemium pitch-view counter (spec §3 ViewCounter, §4.1 pitch_view) -/

/-- Modelled from the spec: the per-investor freemium state tracked by
`InvestorAccess` / `get_investor_with_access` in
`backend/app/api/deps.py` (absent from the snapshot): an entitlement
flag, the lifetime `free_views_remaining` counter, and the set of
pitches already recorded as viewed (the `PitchView` rows). -/
structure InvestorAccess where
  entitled : Bool
  free_views_remaining : Int
  viewed : List PitchId
deriving DecidableEq, Repr

/-- Modelled from the spec: `checkAndConsume` for action kind
`pitch_view` (spec §4.1), the logic of the backend
`POST /pitches/{id}/view` handler which is absent from the snapshot.
Entitled actors pass unconditionally; a re-view of a recorded pitch is
permitted without decrement; otherwise a positive counter is
decremented and the pitch recorded; an exhausted counter yields a
denial, returned as a `Decision`, not raised. -/
def requestPitchView (s : InvestorAccess) (p : PitchId) : Decision × InvestorAccess :=
  if s.entitled then
    ({ allowed := true, remaining := s.free_views_remaining, reason := some Reason.entitled }, s)
  else if s.viewed.contains p then
    ({ allowed := true, remaining := s.free_views_remaining, reason := some Reason.free_quota }, s)
  else if 0 < s.free_views_remaining then
    ({ allowed := true, remaining := s.free_views_remaining - 1, reason := some Reason.free_quota },
     { s with free_views_remaining := s.free_views_remaining - 1, viewed := p :: s.viewed })
  else
    ({ allowed := false, remaining := s.free_views_remaining, reason := some Reason.exhausted }, s)

/-! ### Monthly DM counter (spec §3 DMCounter, §4.1 dm_create) -/

/-- A calendar year-month anchor. -/
structure YearMonth where
  year : Nat
  month : Nat
deriving DecidableEq, Repr

/-- Modelled from the spec: the per-actor monthly DM state tracked by
`TalentDMAccess` / `get_talent_dm_access` in `backend/app/api/deps.py`
(absent from the snapshot): entitlement flag, `dm_count_this_month`,
and the `dm_month_anchor` year-month. -/
structure DMAccess where
  entitled : Bool
  dm_count_this_month : Nat
  dm_month_anchor : YearMonth
deriving DecidableEq, Repr

/-- Monthly allotment of free DMs (spec §3). -/
def dmAllotment : Nat := 5

/-- Modelled from the spec: lazy monthly reset of the DM counter
(spec §4.1 dm_create, first step), part of the absent
`get_talent_dm_access` dependency. -/
def resetDMIfNewMonth (s : DMAccess) (now : YearMonth) : DMAccess :=
  if s.dm_month_anchor = now then s
  else { s with dm_count_this_month := 0, dm_month_anchor := now }

/-- Modelled from the spec: `checkAndConsume` for action kind
`dm_create` (spec §4.1), the DM-limit check of the absent
`backend/app/api/talent_qa.py` thread-creation handler.  The anchor is
compared first and the counter reset on a month change; then an
entitled actor passes; otherwise a count below the allotment is
incremented and the DM permitted, and a count at the allotment yields
a denial with no further increment. -/
def requestDM (s : DMAccess) (now : YearMonth) : Decision × DMAccess :=
  let s0 := resetDMIfNewMonth s now
  if s0.entitled then
    ({ allowed := true, remaining := (dmAllotment : Int) - s0.dm_count_this_month,
       reason := some Reason.entitled }, s0)
  else if s0.dm_count_this_month < dmAllotment then
    ({ allowed := true, remaining := (dmAllotment : Int) - (s0.dm_count_this_month + 1),
       reason := some Reason.free_quota },
     { s0 with dm_count_this_month := s0.dm_count_this_month + 1 })
  else
    ({ allowed := false, remaining := 0, reason := some Reason.exhausted }, s0)

/-! ### Daily talent-view counter (spec §3 DailyViewCounter, §4.1 talent_view) -/

abbrev Date := Nat

/-- Modelled from the spec: the per-actor daily talent-view state
(the `talent_views_today` and `last_reset_date` fields added to
`FounderProfile` / `InvestorProfile` in `backend/app/models/user.py`,
absent from the snapshot). -/
structure TalentViewAccess where
  entitled : Bool
  talent_views_today : Nat
  last_reset_date : Date
deriving DecidableEq, Repr

/-- Daily allotment of free talent views (spec §3). -/
def talentAllotment : Nat := 5

/-- Modelled from the spec: lazy daily reset — the counter is set back
to the allotment whenever the current date differs from
`last_reset_date`, evaluated at the moment of the access attempt
(spec §3 DailyViewCounter invariant); part of the absent
`backend/app/api/talent_pitches.py` view handler. -/
def resetIfNewDay (s : TalentViewAccess) (today : Date) : TalentViewAccess :=
  if s.last_reset_date = today then s
  else { s with talent_views_today := talentAllotment, last_reset_date := today }

/-- Modelled from the spec: the entitlement-bypass / decrement-or-deny
step of the talent-view check (spec §4.1 talent_view, second step),
run on a state whose reset check has already been performed. -/
def evalTalentView (s : TalentViewAccess) : Decision × TalentViewAccess :=
  if s.entitled then
    ({ allowed := true, remaining := (s.talent_views_today : Int),
       reason := some Reason.entitled }, s)
  else if 0 < s.talent_views_today then
    ({ allowed := true, remaining := (s.talent_views_today : Int) - 1,
       reason := some Reason.free_quota },
     { s with talent_views_today := s.talent_views_today - 1 })
  else
    ({ allowed := false, remaining := 0, reason := some Reason.exhausted }, s)

/-- Modelled from the spec: `checkAndConsume` for action kind
`talent_view` (spec §4.1): the lazy daily reset runs first, inside the
access attempt itself, and only then the entitlement-bypass /
decrement-or-deny evaluation. -/
def requestTalentView (s : TalentViewAccess) (today : Date) : Decision × TalentViewAccess :=
  evalTalentView (resetIfNewDay s today)

/-! ### Q&A thread status machine (spec §4.2, §6) -/

/-- Thread lifecycle states, from `QAThreadStatus` in
`backend/app/models/qa.py` as quoted in the CTA-flow document. -/
inductive QAThreadStatus where
  | active
  | awaiting_response
  | interested
  | declined
  | connected
deriving DecidableEq, Repr

/-- A Q&A message: sender and body (spec §3 QAMessage). -/
structure QAMessage where
  sender : ActorId
  body : String
deriving DecidableEq, Repr

/-- Modelled from the spec: the `QAThread` record of §3 (the
SQLAlchemy model in `backend/app/models/qa.py` is absent from the
snapshot): identity, the founder/investor pair, the startup subject,
the status field, the optional decline message, and the owned
message list. -/
structure QAThread where
  id : ThreadId
  founder : ActorId
  investor : ActorId
  startup : Nat
  status : QAThreadStatus
  decline_message : Option String
  messages : List QAMessage
deriving DecidableEq, Repr

/-- The two status-transition events of `transitionStatus` (spec §6). -/
inductive ThreadEvent where
  | connect
  | decline
deriving DecidableEq, Repr

/-- The error taxonomy of spec §7 (QuotaExhausted is a `Decision`
value, not an error, so it does not appear here). -/
inductive LedgerError where
  | InvalidTransition
  | NotParticipant
  | NotFound
  | ValidationError
deriving DecidableEq, Repr

/-- Modelled from the spec: the status transition of
`PUT /qa/threads/{id}/status` in `backend/app/api/qa.py` (absent from
the snapshot), per the transition table of spec §4.2: connect and
decline apply only from `active` or `awaiting_response`; decline
stores the decline message; a caller who is not the thread's
founder or investor is rejected as `NotParticipant`; any other
combination is an `InvalidTransition`, never silently coerced. -/
def transitionStatus (t : QAThread) (actor : ActorId) (e : ThreadEvent)
    (msg : Option String) : Except LedgerError QAThread :=
  if actor = t.investor ∨ actor = t.founder then
    match e, t.status with
    | ThreadEvent.connect, QAThreadStatus.active =>
        Except.ok { t with status := QAThreadStatus.interested }
    | ThreadEvent.connect, QAThreadStatus.awaiting_response =>
        Except.ok { t with status := QAThreadStatus.interested }
    | ThreadEvent.decline, QAThreadStatus.active =>
        Except.ok { t with status := QAThreadStatus.declined, decline_message := msg }
    | ThreadEvent.decline, QAThreadStatus.awaiting_response =>
        Except.ok { t with status := QAThreadStatus.declined, decline_message := msg }
    | _, _ => Except.error LedgerError.InvalidTransition
  else
    Except.error LedgerError.NotParticipant

/-- Lookup of a thread by identifier in the persisted store
(spec §6: messages and threads keyed by identifier). -/
def findById (tid : ThreadId) : List QAThread → Option QAThread
  | [] => none
  | t :: rest => if t.id = tid then some t else findById tid rest

/-- Replace the first thread with the given identifier. -/
def replaceById (tid : ThreadId) (t' : QAThread) : List QAThread → List QAThread
  | [] => []
  | t :: rest => if t.id = tid then t' :: rest else t :: replaceById tid t' rest

/-- Modelled from the spec: the store-level status-transition
operation — on any rejection the store is returned unchanged
(spec §7: thread state unchanged on `InvalidTransition`). -/
def transitionStatusStore (store : List QAThread) (tid : ThreadId) (actor : ActorId)
    (e : ThreadEvent) (msg : Option String) :
    Except LedgerError QAThreadStatus × List QAThread :=
  match findById tid store with
  | none => (Except.error LedgerError.NotFound, store)
  | some t =>
    match transitionStatus t actor e msg with
    | Except.error err => (Except.error err, store)
    | Except.ok t' => (Except.ok t'.status, replaceById tid t' store)

/-! ### Message append (spec §6 appendMessage, §4.2 status frame) -/

/-- Whether the founder has already replied in the thread. -/
def founderHasReplied (t : QAThread) : Bool :=
  t.messages.any (fun m => m.sender == t.founder)

/-- Modelled from the spec: the effect of a successful message append
on a single thread record (spec §4.2): the message is appended, and
the status moves from `active` to `awaiting_response` when the
investor sends a further message before the founder has replied;
every other status is left untouched. -/
def appendToThreadRecord (t : QAThread) (m : QAMessage) : QAThread :=
  if t.status = QAThreadStatus.active ∧ m.sender = t.investor ∧ founderHasReplied t = false then
    { t with status := QAThreadStatus.awaiting_response, messages := t.messages ++ [m] }
  else
    { t with messages := t.messages ++ [m] }

/-- Apply a successful append to the first thread with the given
identifier, leaving every other thread unchanged. -/
def updateThread (tid : ThreadId) (m : QAMessage) : List QAThread → List QAThread
  | [] => []
  | t :: rest =>
      if t.id = tid then appendToThreadRecord t m :: rest
      else t :: updateThread tid m rest

/-- Uniform message-body cap (spec §6: the source enforces a
500-character cap, applied uniformly). -/
def bodyCap : Nat := 500

/-- Modelled from the spec: `appendMessage` of §6 — the handler of
`POST /qa/threads/{id}/messages` in `backend/app/api/qa.py` (absent
from the snapshot).  An empty or over-cap body is rejected with
`ValidationError`, a missing thread with `NotFound`, a sender who is
not a participant with `NotParticipant`; every rejection happens
before any mutation, so the store is returned unchanged. -/
def appendMessage (store : List QAThread) (tid : ThreadId) (sender : ActorId)
    (body : String) : Except LedgerError Unit × List QAThread :=
  if body.length = 0 ∨ bodyCap < body.length then
    (Except.error LedgerError.ValidationError, store)
  else
    match findById tid store with
    | none => (Except.error LedgerError.NotFound, store)
    | some t =>
      if sender = t.investor ∨ sender = t.founder then
        (Except.ok (), updateThread tid { sender := sender, body := body } store)
      else
        (Except.error LedgerError.NotParticipant, store)

/-! ### Thread creation (spec §6 createOrReuseThread) -/

/-- Whether a thread belongs to the given (investor, founder, startup)
triple (spec §6: threads keyed by the triple). -/
def tripleMatch (inv fnd st : Nat) (t : QAThread) : Bool :=
  t.investor == inv && t.founder == fnd && t.startup == st

/-- Lookup of the thread owned by a triple. -/
def findByTriple (inv fnd st : Nat) : List QAThread → Option QAThread
  | [] => none
  | t :: rest => if tripleMatch inv fnd st t then some t else findByTriple inv fnd st rest

/-- Append messages to the first thread owned by a triple. -/
def appendByTriple (inv fnd st : Nat) (msgs : List QAMessage) :
    List QAThread → List QAThread
  | [] => []
  | t :: rest =>
      if tripleMatch inv fnd st t then { t with messages := t.messages ++ msgs } :: rest
      else t :: appendByTriple inv fnd st msgs rest

/-- The persisted thread store with its id generator (spec §6:
threads keyed by the triple with a generated identifier). -/
structure QAStore where
  threads : List QAThread
  nextId : ThreadId
deriving DecidableEq, Repr

/-- Each question body becomes a `QAMessage` sent by the investor
(spec §6: appends each question as a QAMessage from the investor). -/
def mkQuestionMsgs (inv : ActorId) (questions : List String) : List QAMessage :=
  questions.map (fun q => { sender := inv, body := q })

/-- Modelled from the spec: `createOrReuseThread` of §6 — the handler
of `POST /qa/threads` in `backend/app/api/qa.py` (absent from the
snapshot).  A thread is created once per (investor, founder, startup)
triple: a repeated request finds the existing thread, returns its
identifier and appends the new questions as investor messages; only a
first request creates a thread (in state `active`, with the questions
as its messages) under a fresh identifier. -/
def createOrReuseThread (store : QAStore) (inv fnd st : Nat) (questions : List String) :
    ThreadId × QAStore :=
  let msgs := mkQuestionMsgs inv questions
  match findByTriple inv fnd st store.threads with
  | some t =>
      (t.id, { store with threads := appendByTriple inv fnd st msgs store.threads })
  | none =>
      let t : QAThread :=
        { id := store.nextId, founder := fnd, investor := inv, startup := st,
          status := QAThreadStatus.active, decline_message := none, messages := msgs }
      (store.nextId, { threads := store.threads ++ [t], nextId := store.nextId + 1 })

/-- Total number of messages held in a store. -/
def totalMessages (threads : List QAThread) : Nat :=
  (threads.map (fun t => t.messages.length)).sum

/-! ### Admin-panel access gating (from the source) -/

/-- A signed-in Firebase user as seen by the admin panel: Firebase
exposes a possibly-null email. -/
structure FirebaseUser where
  email : Option String
deriving DecidableEq, Repr

/-- The JavaScript `String.prototype.endsWith` suffix test, embedded
over the character list of the string. -/
def strEndsWith (s suf : String) : Bool := suf.data.isSuffixOf s.data

/-- The admin check of `AuthProvider` in `admin/lib/auth-context.tsx`:
`firebaseUser.email?.endsWith(atCaerus) || false` — a missing email
yields `false`. -/
def isAdminEmail (email : Option String) : Bool :=
  match email with
  | some e => strEndsWith e "@caerus.app"
  | none => false

/-- The auth context state consumed by `AdminLayout`:
`user`, `isLoading`, `isAdmin`. -/
structure AuthState where
  user : Option FirebaseUser
  isLoading : Bool
  isAdmin : Bool
deriving DecidableEq, Repr

/-- The state produced by the `onAuthChange` handler of
`AuthProvider` once it completes: a signed-out change clears
everything; a signed-in change logs in to the backend and, when that
succeeds, sets `isAdmin` from the email check; when the backend call
fails the catch branch clears `isAdmin`.  `isLoading` is set to
`false` at the end of the handler in every case. -/
def authStateAfterChange (fu : Option FirebaseUser) (backendOk : Bool) : AuthState :=
  match fu with
  | some u =>
      if backendOk then { user := some u, isLoading := false, isAdmin := isAdminEmail u.email }
      else { user := some u, isLoading := false, isAdmin := false }
  | none => { user := none, isLoading := false, isAdmin := false }

/-- What `AdminLayout` renders. -/
inductive AdminRender where
  | loadingScreen
  | redirectToLogin
  | accessDenied
  | adminContent
deriving DecidableEq, Repr

/-- The render logic of `admin/components/AdminLayout.tsx`: while
loading, a loading screen; with no signed-in user, a redirect to
`/login` (and a null render); a signed-in non-admin gets the Access
Denied card; an admin gets the sidebar and the page content. -/
def adminLayout (s : AuthState) : AdminRender :=
  if s.isLoading then AdminRender.loadingScreen
  else
    match s.user with
    | none => AdminRender.redirectToLogin
    | some _ => if s.isAdmin then AdminRender.adminContent else AdminRender.accessDenied

/-! ## Claim theorems -/

/-- Claim C1: for an actor without an active paid entitlement,
`requestPitchView` decrements `free_views_remaining` by exactly 1 on
the first-ever view of a distinct pitch (recording the pair as
viewed), performs no decrement when the pitch was already recorded as
viewed (the re-view is permitted), and `free_views_remaining` never
becomes negative. -/
theorem requestPitchView_freemium (s : InvestorAccess) (p : PitchId)
    (hent : s.entitled = false) (hnn : 0 ≤ s.free_views_remaining) :
    (s.viewed.contains p = false → 0 < s.free_views_remaining →
       (requestPitchView s p).1.allowed = true ∧
       (requestPitchView s p).2.free_views_remaining = s.free_views_remaining - 1 ∧
       (requestPitchView s p).2.viewed.contains p = true) ∧
    (s.viewed.contains p = true →
       (requestPitchView s p).1.allowed = true ∧
       (requestPitchView s p).2 = s) ∧
    0 ≤ (requestPitchView s p).2.free_views_remaining := by
  refine ⟨?_, ?_, ?_⟩
  · intro hv hpos
    have hv' : p ∉ s.viewed := by simpa using hv
    simp [requestPitchView, hent, hv', hpos]
  · intro hv
    have hv' : p ∈ s.viewed := by simpa using hv
    simp [requestPitchView, hent, hv']
  · by_cases hv : p ∈ s.viewed
    · simp [requestPitchView, hent, hv]
      exact hnn
    · by_cases hpos : 0 < s.free_views_remaining
      · simp [requestPitchView, hent, hv, hpos]
        omega
      · simp [requestPitchView, hent, hv, hpos]
        exact hnn

/-- Witness for C1: a fresh view of pitch 2 with 3 views left is
permitted and decrements the counter to 2. -/
theorem requestPitchView_freemium_witness :
    (requestPitchView { entitled := false, free_views_remaining := 3, viewed := [1] } 2).1.allowed
        = true ∧
    (requestPitchView
        { entitled := false, free_views_remaining := 3, viewed := [1] } 2).2.free_views_remaining
        = 2 := by
  have h := requestPitchView_freemium
    { entitled := false, free_views_remaining := 3, viewed := [1] } 2 rfl (by decide)
  have h1 := h.1 (by decide) (by decide)
  exact ⟨h1.1, h1.2.1⟩

/-- Claim C2: an investor with `free_views_remaining = 0`, no entitlement,
and a not-previously-viewed target pitch gets a denial returned as a
`Decision` value (with reason `exhausted`), never an error, and the
state — in particular the counter at 0 — is unchanged. -/
theorem requestPitchView_exhausted_denied (s : InvestorAccess) (p : PitchId)
    (hent : s.entitled = false) (hv : s.viewed.contains p = false)
    (h0 : s.free_views_remaining = 0) :
    requestPitchView s p =
      ({ allowed := false, remaining := 0, reason := some Reason.exhausted }, s) := by
  have hv' : p ∉ s.viewed := by simpa using hv
  unfold requestPitchView
  simp [hent, hv', h0]

/-- Witness for C2: an exhausted investor viewing a fresh pitch is
denied and the state is unchanged. -/
theorem requestPitchView_exhausted_denied_witness :
    requestPitchView { entitled := false, free_views_remaining := 0, viewed := [5] } 7 =
      ({ allowed := false, remaining := 0, reason := some Reason.exhausted },
       { entitled := false, free_views_remaining := 0, viewed := [5] }) :=
  requestPitchView_exhausted_denied
    { entitled := false, free_views_remaining := 0, viewed := [5] } 7 rfl (by decide) rfl

/-- Claim C3: `requestDM` follows the `dm_create` policy: a call whose
current year-month differs from the stored anchor first resets the
monthly counter to 0 (regardless of how many months were skipped, as
only anchor inequality is tested), so the call behaves exactly as on
the reset state; absent an entitlement, a counter below 5 is
incremented and the DM permitted; an actor at `dm_count_this_month
= 5` gets `allowed = false` with no further increment. -/
theorem requestDM_policy (s : DMAccess) (now : YearMonth) (hent : s.entitled = false) :
    (s.dm_month_anchor ≠ now →
       (resetDMIfNewMonth s now).dm_count_this_month = 0 ∧
       requestDM s now =
         requestDM { s with dm_count_this_month := 0, dm_month_anchor := now } now) ∧
    (s.dm_month_anchor = now → s.dm_count_this_month < dmAllotment →
       (requestDM s now).1.allowed = true ∧
       (requestDM s now).2.dm_count_this_month = s.dm_count_this_month + 1) ∧
    (s.dm_month_anchor = now → s.dm_count_this_month = dmAllotment →
       (requestDM s now).1.allowed = false ∧
       (requestDM s now).2.dm_count_this_month = s.dm_count_this_month) := by
  refine ⟨?_, ?_, ?_⟩
  · intro hne
    refine ⟨by simp [resetDMIfNewMonth, hne], ?_⟩
    simp [requestDM, resetDMIfNewMonth, hne]
  · intro heq hlt
    simp [requestDM, resetDMIfNewMonth, heq, hent, hlt]
  · intro heq h5
    simp [requestDM, resetDMIfNewMonth, heq, hent, h5]

/-- Witness for C3: a founder at 5 DMs this month with no entitlement
is denied and the counter stays at 5. -/
theorem requestDM_policy_witness :
    (requestDM
        { entitled := false, dm_count_this_month := 5,
          dm_month_anchor := { year := 2026, month := 1 } }
        { year := 2026, month := 1 }).1.allowed = false ∧
    (requestDM
        { entitled := false, dm_count_this_month := 5,
          dm_month_anchor := { year := 2026, month := 1 } }
        { year := 2026, month := 1 }).2.dm_count_this_month = 5 :=
  (requestDM_policy
      { entitled := false, dm_count_this_month := 5,
        dm_month_anchor := { year := 2026, month := 1 } }
      { year := 2026, month := 1 } rfl).2.2 rfl rfl

/-- Claim C4: the daily talent-view counter is reset to the allotment of 5
whenever the current date differs from `last_reset_date`; the reset
is performed lazily inside the access attempt itself
(`requestTalentView` is by definition the evaluation of the policy on
the reset state, so the entitlement-bypass / decrement-or-deny logic
runs only after the reset check), and a first access of a new day by
a non-entitled actor is permitted with the counter moving 5 → 4. -/
theorem requestTalentView_daily_reset (s : TalentViewAccess) (today : Date)
    (hnew : s.last_reset_date ≠ today) :
    (resetIfNewDay s today).talent_views_today = talentAllotment ∧
    (resetIfNewDay s today).last_reset_date = today ∧
    requestTalentView s today = evalTalentView (resetIfNewDay s today) ∧
    (s.entitled = false →
       (requestTalentView s today).1.allowed = true ∧
       (requestTalentView s today).2.talent_views_today = talentAllotment - 1 ∧
       (requestTalentView s today).2.last_reset_date = today) := by
  refine ⟨by simp [resetIfNewDay, hnew], by simp [resetIfNewDay, hnew], rfl, ?_⟩
  intro hent
  simp [requestTalentView, evalTalentView, resetIfNewDay, hnew, hent, talentAllotment]

/-- Witness for C4: an exhausted counter from yesterday is reset to 5
on today's attempt, which is permitted and leaves 4. -/
theorem requestTalentView_daily_reset_witness :
    (resetIfNewDay
        { entitled := false, talent_views_today := 0, last_reset_date := 10 } 11).talent_views_today
      = talentAllotment ∧
    (requestTalentView
        { entitled := false, talent_views_today := 0, last_reset_date := 10 } 11).1.allowed
      = true ∧
    (requestTalentView
        { entitled := false, talent_views_today := 0, last_reset_date := 10 } 11).2.talent_views_today
      = talentAllotment - 1 := by
  have h := requestTalentView_daily_reset
    { entitled := false, talent_views_today := 0, last_reset_date := 10 } 11 (by decide)
  exact ⟨h.1, (h.2.2.2 rfl).1, (h.2.2.2 rfl).2.1⟩

/-- Claim C5: on a thread whose status is `declined`, a status transition by
a participant — `connect`, and likewise a repeated `decline` — is
rejected with `InvalidTransition`, and the rejected call leaves the
store, hence the thread's status and `decline_message`, unchanged:
the transition is never silently re-applied. -/
theorem transition_on_declined_rejected (store : List QAThread) (t : QAThread)
    (tid : ThreadId) (actor : ActorId) (e : ThreadEvent) (msg : Option String)
    (hfind : findById tid store = some t) (hst : t.status = QAThreadStatus.declined)
    (hpart : actor = t.investor ∨ actor = t.founder) :
    (transitionStatusStore store tid actor e msg).1 =
        Except.error LedgerError.InvalidTransition ∧
    (transitionStatusStore store tid actor e msg).2 = store := by
  have hrej : transitionStatus t actor e msg = Except.error LedgerError.InvalidTransition := by
    unfold transitionStatus
    rw [if_pos hpart, hst]
    cases e <;> rfl
  simp [transitionStatusStore, hfind, hrej]

/-- Witness for C5: a connect on a concrete declined thread is
rejected and the one-thread store is unchanged. -/
theorem transition_on_declined_rejected_witness :
    (transitionStatusStore
        [{ id := 1, founder := 2, investor := 3, startup := 4,
           status := QAThreadStatus.declined, decline_message := some "Not a fit",
           messages := [] }] 1 3 ThreadEvent.connect none).1 =
      Except.error LedgerError.InvalidTransition ∧
    (transitionStatusStore
        [{ id := 1, founder := 2, investor := 3, startup := 4,
           status := QAThreadStatus.declined, decline_message := some "Not a fit",
           messages := [] }] 1 3 ThreadEvent.connect none).2 =
      [{ id := 1, founder := 2, investor := 3, startup := 4,
         status := QAThreadStatus.declined, decline_message := some "Not a fit",
         messages := [] }] :=
  transition_on_declined_rejected _
    { id := 1, founder := 2, investor := 3, startup := 4,
      status := QAThreadStatus.declined, decline_message := some "Not a fit",
      messages := [] }
    1 3 ThreadEvent.connect none (by simp [findById]) rfl (Or.inl rfl)

/-- Claim C6: on a thread in state `active` or `awaiting_response`, a
participant's `decline` with message `msg` succeeds and sets
`status = declined` together with `decline_message = msg`; the pair
is set exactly once: any subsequent `decline` on the resulting thread
by a participant returns `InvalidTransition` (so `decline_message` is
set only on the transition into `declined`). -/
theorem decline_sets_message_once (t : QAThread) (actor : ActorId) (msg : String)
    (hpart : actor = t.investor ∨ actor = t.founder)
    (hst : t.status = QAThreadStatus.active ∨ t.status = QAThreadStatus.awaiting_response) :
    transitionStatus t actor ThreadEvent.decline (some msg) =
      Except.ok { t with status := QAThreadStatus.declined, decline_message := some msg } ∧
    ∀ a2 m2, (a2 = t.investor ∨ a2 = t.founder) →
      transitionStatus
          { t with status := QAThreadStatus.declined, decline_message := some msg }
          a2 ThreadEvent.decline m2 =
        Except.error LedgerError.InvalidTransition := by
  constructor
  · unfold transitionStatus
    rw [if_pos hpart]
    rcases hst with h | h <;> rw [h]
  · intro a2 m2 hpart2
    unfold transitionStatus
    rw [if_pos hpart2]

/-- Witness for C6: declining a concrete active thread stores the
message, and a second decline on the result is rejected. -/
theorem decline_sets_message_once_witness :
    transitionStatus
        { id := 1, founder := 2, investor := 3, startup := 4,
          status := QAThreadStatus.active, decline_message := none, messages := [] }
        3 ThreadEvent.decline (some "Not a fit") =
      Except.ok
        { id := 1, founder := 2, investor := 3, startup := 4,
          status := QAThreadStatus.declined, decline_message := some "Not a fit",
          messages := [] } ∧
    transitionStatus
        { id := 1, founder := 2, investor := 3, startup := 4,
          status := QAThreadStatus.declined, decline_message := some "Not a fit",
          messages := [] }
        3 ThreadEvent.decline (some "Again") =
      Except.error LedgerError.InvalidTransition := by
  have h := decline_sets_message_once
    { id := 1, founder := 2, investor := 3, startup := 4,
      status := QAThreadStatus.active, decline_message := none, messages := [] }
    3 "Not a fit" (Or.inl rfl) (Or.inl rfl)
  exact ⟨h.1, h.2 3 (some "Again") (Or.inl rfl)⟩

/-! Helper lemmas about the thread store. -/

theorem totalMessages_cons (t : QAThread) (l : List QAThread) :
    totalMessages (t :: l) = t.messages.length + totalMessages l := by
  simp [totalMessages]

theorem appendByTriple_length (inv fnd st : Nat) (msgs : List QAMessage)
    (l : List QAThread) : (appendByTriple inv fnd st msgs l).length = l.length := by
  induction l with
  | nil => rfl
  | cons t rest ih =>
    unfold appendByTriple
    by_cases h : tripleMatch inv fnd st t
    · simp [h]
    · simp [h, ih]

theorem findByTriple_appendByTriple (inv fnd st : Nat) (msgs : List QAMessage)
    (l : List QAThread) :
    findByTriple inv fnd st (appendByTriple inv fnd st msgs l) =
      (findByTriple inv fnd st l).map
        (fun t => { t with messages := t.messages ++ msgs }) := by
  induction l with
  | nil => rfl
  | cons t rest ih =>
    by_cases h : tripleMatch inv fnd st t
    · have h2 : tripleMatch inv fnd st { t with messages := t.messages ++ msgs } = true := h
      simp [appendByTriple, findByTriple, h, h2]
    · have h2 : ¬ tripleMatch inv fnd st { t with messages := t.messages ++ msgs } = true := h
      simp only [appendByTriple, findByTriple, if_neg h, if_neg h2]
      exact ih

theorem findByTriple_append_of_none (inv fnd st : Nat) (l1 l2 : List QAThread)
    (h : findByTriple inv fnd st l1 = none) :
    findByTriple inv fnd st (l1 ++ l2) = findByTriple inv fnd st l2 := by
  induction l1 with
  | nil => rfl
  | cons t rest ih =>
    by_cases hm : tripleMatch inv fnd st t
    · simp [findByTriple, hm] at h
    · simp only [findByTriple, if_neg hm] at h
      simp only [List.cons_append, findByTriple, if_neg hm]
      exact ih h

theorem totalMessages_appendByTriple (inv fnd st : Nat) (msgs : List QAMessage)
    (l : List QAThread) (t : QAThread)
    (hfind : findByTriple inv fnd st l = some t) :
    totalMessages (appendByTriple inv fnd st msgs l) =
      totalMessages l + msgs.length := by
  induction l with
  | nil => cases hfind
  | cons u rest ih =>
    by_cases hm : tripleMatch inv fnd st u
    · simp only [appendByTriple, if_pos hm, totalMessages_cons, List.length_append]
      omega
    · have h2 : findByTriple inv fnd st rest = some t := by
        simpa only [findByTriple, if_neg hm] using hfind
      simp only [appendByTriple, if_neg hm, totalMessages_cons, ih h2]
      omega

/-- Claim C7: `createOrReuseThread` is idempotent on the (investor,
founder, startup) triple: the second call returns the same `ThreadId`
as the first, creates no additional thread (the store's thread count
is unchanged), and the total message count grows by exactly the
questions the second call itself appended. -/
theorem createOrReuseThread_idempotent (store : QAStore) (inv fnd st : Nat)
    (qs1 qs2 : List String) :
    (createOrReuseThread (createOrReuseThread store inv fnd st qs1).2 inv fnd st qs2).1 =
        (createOrReuseThread store inv fnd st qs1).1 ∧
    (createOrReuseThread (createOrReuseThread store inv fnd st qs1).2 inv fnd st
          qs2).2.threads.length =
        (createOrReuseThread store inv fnd st qs1).2.threads.length ∧
    totalMessages
        (createOrReuseThread (createOrReuseThread store inv fnd st qs1).2 inv fnd st
            qs2).2.threads =
      totalMessages (createOrReuseThread store inv fnd st qs1).2.threads + qs2.length := by
  cases hfind : findByTriple inv fnd st store.threads with
  | some t =>
    have hfind2 : findByTriple inv fnd st
        (appendByTriple inv fnd st (mkQuestionMsgs inv qs1) store.threads) =
        some { t with messages := t.messages ++ mkQuestionMsgs inv qs1 } := by
      rw [findByTriple_appendByTriple, hfind]
      rfl
    refine ⟨?_, ?_, ?_⟩
    · simp [createOrReuseThread, hfind, hfind2]
    · simp [createOrReuseThread, hfind, hfind2, appendByTriple_length]
    · simp only [createOrReuseThread, hfind, hfind2]
      rw [totalMessages_appendByTriple _ _ _ _ _ _ hfind2]
      simp [mkQuestionMsgs]
  | none =>
    have hnew : findByTriple inv fnd st
        (store.threads ++ (({ id := store.nextId, founder := fnd, investor := inv,
                              startup := st, status := QAThreadStatus.active,
                              decline_message := none,
                              messages := mkQuestionMsgs inv qs1 } : QAThread) :: [])) =
        some ({ id := store.nextId, founder := fnd, investor := inv, startup := st,
                status := QAThreadStatus.active, decline_message := none,
                messages := mkQuestionMsgs inv qs1 } : QAThread) := by
      rw [findByTriple_append_of_none _ _ _ _ _ hfind]
      simp [findByTriple, tripleMatch]
    refine ⟨?_, ?_, ?_⟩
    · simp [createOrReuseThread, hfind, hnew]
    · simp [createOrReuseThread, hfind, hnew, appendByTriple_length]
    · simp only [createOrReuseThread, hfind, hnew]
      rw [totalMessages_appendByTriple _ _ _ _ _ _ hnew]
      simp [mkQuestionMsgs]

/-- Claim C8: `appendMessage` rejects an empty body or a body over the
500-character cap with `ValidationError`, a missing thread with
`NotFound`, and a non-participant sender with `NotParticipant`, and
each rejection is surfaced before any state mutation: the rejected
call returns the store unchanged (no partial writes). -/
theorem appendMessage_rejections (store : List QAThread) (tid : ThreadId)
    (sender : ActorId) (body : String) :
    (body.length = 0 ∨ bodyCap < body.length →
       appendMessage store tid sender body =
         (Except.error LedgerError.ValidationError, store)) ∧
    (¬(body.length = 0 ∨ bodyCap < body.length) → findById tid store = none →
       appendMessage store tid sender body =
         (Except.error LedgerError.NotFound, store)) ∧
    (∀ t, ¬(body.length = 0 ∨ bodyCap < body.length) → findById tid store = some t →
       ¬(sender = t.investor ∨ sender = t.founder) →
       appendMessage store tid sender body =
         (Except.error LedgerError.NotParticipant, store)) := by
  refine ⟨?_, ?_, ?_⟩
  · intro hbad
    simp [appendMessage, hbad]
  · intro hok hnone
    simp [appendMessage, hok, hnone]
  · intro t hok hsome hnp
    simp [appendMessage, hok, hsome, hnp]

/-- Witness for C8: appending an empty body is rejected with
`ValidationError` and the empty store is unchanged. -/
theorem appendMessage_rejections_witness :
    appendMessage [] 1 2 "" = (Except.error LedgerError.ValidationError, []) :=
  (appendMessage_rejections [] 1 2 "").1 (Or.inl rfl)

/-- The per-thread append preserves the thread identifier. -/
theorem appendToThreadRecord_id (t : QAThread) (m : QAMessage) :
    (appendToThreadRecord t m).id = t.id := by
  unfold appendToThreadRecord
  split <;> rfl

/-- A successful append rewrites exactly the target thread with
`appendToThreadRecord`. -/
theorem findById_updateThread (tid : ThreadId) (m : QAMessage) (l : List QAThread) :
    findById tid (updateThread tid m l) =
      (findById tid l).map (fun t => appendToThreadRecord t m) := by
  induction l with
  | nil => rfl
  | cons t rest ih =>
    by_cases h : t.id = tid
    · have h2 : (appendToThreadRecord t m).id = tid := by rw [appendToThreadRecord_id, h]
      simp [updateThread, findById, h, h2]
    · have h2 : ¬ (t.id = tid) := h
      simp only [updateThread, findById, if_neg h, if_neg h2]
      exact ih

/-- Claim C9: on a thread whose status is `interested`, `declined` or
`connected`, a successful `appendMessage` leaves the status field
unchanged; an append can change the status only by moving `active`
to `awaiting_response`; and at store level a successful append
replaces the target thread by exactly its `appendToThreadRecord`
image, touching nothing else about it. -/
theorem appendMessage_status_frame (t : QAThread) (m : QAMessage)
    (store : List QAThread) (tid : ThreadId) :
    ((t.status = QAThreadStatus.interested ∨ t.status = QAThreadStatus.declined ∨
        t.status = QAThreadStatus.connected) →
       (appendToThreadRecord t m).status = t.status) ∧
    ((appendToThreadRecord t m).status ≠ t.status →
       t.status = QAThreadStatus.active ∧
       (appendToThreadRecord t m).status = QAThreadStatus.awaiting_response) ∧
    (findById tid store = some t →
       findById tid (updateThread tid m store) = some (appendToThreadRecord t m)) := by
  refine ⟨?_, ?_, ?_⟩
  · intro hterm
    unfold appendToThreadRecord
    split
    · rename_i hcond
      rcases hterm with h | h | h <;> rw [hcond.1] at h <;> cases h
    · rfl
  · intro hch
    unfold appendToThreadRecord at hch ⊢
    by_cases hcond : t.status = QAThreadStatus.active ∧ m.sender = t.investor ∧
        founderHasReplied t = false
    · rw [if_pos hcond] at hch ⊢
      exact ⟨hcond.1, rfl⟩
    · rw [if_neg hcond] at hch
      exact absurd rfl hch
  · intro hsome
    rw [findById_updateThread, hsome]
    rfl

/-- Witness for C9: appending to a concrete declined thread leaves
its status `declined`. -/
theorem appendMessage_status_frame_witness :
    (appendToThreadRecord
        { id := 1, founder := 2, investor := 3, startup := 4,
          status := QAThreadStatus.declined, decline_message := some "Not a fit",
          messages := [] }
        { sender := 3, body := "hello" }).status = QAThreadStatus.declined :=
  (appendMessage_status_frame
      { id := 1, founder := 2, investor := 3, startup := 4,
        status := QAThreadStatus.declined, decline_message := some "Not a fit",
        messages := [] }
      { sender := 3, body := "hello" } [] 1).1 (Or.inr (Or.inl rfl))

/-- Claim C10: in the auth state produced by a completed sign-in (backend
login succeeded), `AdminLayout` renders the admin interface (sidebar
and page content) if and only if the signed-in user's email ends with
"@caerus.app"; any other signed-in user — including one whose
Firebase account has no email — is shown the Access Denied screen and
no admin content; a signed-out visitor is redirected to the login
page. -/
theorem admin_access_control (u : FirebaseUser) :
    (adminLayout (authStateAfterChange (some u) true) = AdminRender.adminContent ↔
        isAdminEmail u.email = true) ∧
    (isAdminEmail u.email = false →
        adminLayout (authStateAfterChange (some u) true) = AdminRender.accessDenied) ∧
    adminLayout (authStateAfterChange none true) = AdminRender.redirectToLogin := by
  by_cases h : isAdminEmail u.email = true
  · refine ⟨?_, ?_, rfl⟩
    · simp [adminLayout, authStateAfterChange, h]
    · intro hf
      rw [h] at hf
      cases hf
  · have hf : isAdminEmail u.email = false := by
      cases he : isAdminEmail u.email
      · rfl
      · exact absurd he h
    refine ⟨?_, ?_, rfl⟩
    · simp [adminLayout, authStateAfterChange, hf]
    · intro _
      simp [adminLayout, authStateAfterChange, hf]

/-- Witness for C10: a signed-in user with a non-company email gets
the Access Denied screen, and a company address passes the email
check. -/
theorem admin_access_control_witness :
    adminLayout (authStateAfterChange (some { email := some "bob@gmail.com" }) true) =
      AdminRender.accessDenied ∧
    isAdminEmail (some "chris@caerus.app") = true := by
  refine ⟨?_, by decide⟩
  exact (admin_access_control { email := some "bob@gmail.com" }).2.1 (by decide)

end Caerus
